import Mathlib

/-!
Shallow embedding of the streaming VAD segmentation engine
(`src/streaming_vad/streaming_vad.py`, class `StreamingVAD`).

Audio bytes are modelled as `List Nat` (one `Nat` per byte); a frame is one
such list.  The pluggable VAD unit (classifier) is modelled by its abstract
contract: a pure function `classify : List Nat → Bool` on a window of raw
bytes, plus the derived window ratio `vad_unit_frame_ratio =
vad_unit.samples_per_frame / samples_per_frame`.  All engine state and the
whole body of `StreamingVAD.process` are translated statement by statement.
-/

namespace StreamingVad

/-- One frame of raw audio bytes. -/
abbrev Frame := List Nat

/-- `VADState` enum from the source. -/
inductive VADState where
  | Idle
  | Started
  | Ended
  | Continue
deriving DecidableEq, Repr

/-- `VADData` dataclass: a state tag plus a list of frame payloads. -/
structure VADData where
  state : VADState
  data : List Frame
deriving DecidableEq, Repr

/-- Errors raised by `StreamingVAD.process`: the frame-size assertion at the
top of `process` (line 133) and the defensive `ValueError` for a macro-state
outside {Idle, Continue} (line 181). -/
inductive ProcError where
  | invalidFrameSize (got expected : Nat)
  | invalidVadState
deriving DecidableEq, Repr

/-- Decidable equality on `Except`, used only to evaluate the model on
concrete runs. -/
instance instDecidableEqExcept {ε α : Type} [DecidableEq ε] [DecidableEq α] :
    DecidableEq (Except ε α) := fun a b =>
  match a, b with
  | Except.ok x, Except.ok y =>
    if h : x = y then Decidable.isTrue (by rw [h])
    else Decidable.isFalse (by simp [h])
  | Except.error e, Except.error e' =>
    if h : e = e' then Decidable.isTrue (by rw [h])
    else Decidable.isFalse (by simp [h])
  | Except.ok _, Except.error _ => Decidable.isFalse (by simp)
  | Except.error _, Except.ok _ => Decidable.isFalse (by simp)

/-- The immutable configuration of `StreamingVAD` (constructor parameters
plus the two derived quantities used by `process`: the byte size of one
engine frame and the classifier window ratio).  The classifier itself is the
abstract contract `classify`. -/
structure Config where
  sample_rate : Nat := 16000
  sample_width : Nat := 2
  samples_per_frame : Nat := 160
  start_frame_num_thresh : Nat := 5
  start_frame_rollback : Nat := 10
  end_frame_num_thresh : Nat := 30
  output_idle_frame : Bool := false
  vad_unit_frame_ratio : Nat
  classify : List Nat → Bool

/-- `actual_frame_size_in_bytes` (line 104). -/
def Config.frameBytes (cfg : Config) : Nat :=
  cfg.sample_width * cfg.samples_per_frame

/-- The mutable runtime state of a `StreamingVAD` instance.

`vad_unit_count` models the attribute created by the assignments
`self.vad_unit_count = 0` on lines 161 and 175 of the source; it does not
exist on a fresh instance (`none`) and is never read.  Note these two lines
do NOT touch `vad_unit_result_count`. -/
structure EngineState where
  vad_unit_frame_buffer : List Frame
  prev_vad_unit_result : Bool
  vad_unit_result_count : Nat
  vad_state : VADState
  vad_result_buffer : List Frame
  vad_unit_count : Option Nat
deriving DecidableEq, Repr

/-- Runtime state right after `__init__` (lines 109–119). -/
def initState : EngineState :=
  { vad_unit_frame_buffer := []
    prev_vad_unit_result := false
    vad_unit_result_count := 0
    vad_state := VADState.Idle
    vad_result_buffer := []
    vad_unit_count := none }

/-- `StreamingVAD.reset` (lines 122–128).  It clears the two buffers and the
counter and returns to `Idle`; the phantom `vad_unit_count` attribute, if it
was ever created, is left alone. -/
def reset (s : EngineState) : EngineState :=
  { vad_unit_frame_buffer := []
    prev_vad_unit_result := false
    vad_unit_result_count := 0
    vad_state := VADState.Idle
    vad_result_buffer := []
    vad_unit_count := s.vad_unit_count }

/-- Lines 136–143: append the frame to the classifier input buffer; when the
buffer reaches `vad_unit_frame_ratio` frames, classify the concatenation of
the buffered bytes (`b''.join`) and clear the buffer, otherwise reuse the
previous classification.  Returns (classification used, new buffer). -/
def classifierUpdate (cfg : Config) (buf : List Frame) (prev : Bool)
    (audio_data : Frame) : Bool × List Frame :=
  let buf := buf ++ [audio_data]
  if buf.length = cfg.vad_unit_frame_ratio then
    (cfg.classify buf.flatten, [])
  else
    (prev, buf)

/-- Lines 147–151: append the frame to the result (rollback) buffer and pop
the oldest frame when the buffer exceeds `start_frame_rollback`.  Returns
(overflow frame popped, new buffer). -/
def rollbackUpdate (rollback : Nat) (rbuf : List Frame)
    (audio_data : Frame) : Option Frame × List Frame :=
  let rbuf := rbuf ++ [audio_data]
  if rbuf.length > rollback then
    (rbuf.head?, rbuf.tail)
  else
    (none, rbuf)

/-- `StreamingVAD.process` (lines 131–182), translated statement by
statement.  The returned pair is (result or raised error, the engine state
as left by the call); the size assertion fires before any mutation, while
the defensive `ValueError` fires after the buffers and
`prev_vad_unit_result` have already been updated. -/
def process (cfg : Config) (s : EngineState) (audio_data : Frame) :
    Except ProcError VADData × EngineState :=
  if audio_data.length ≠ cfg.frameBytes then
    (Except.error (ProcError.invalidFrameSize audio_data.length cfg.frameBytes), s)
  else
    let cu := classifierUpdate cfg s.vad_unit_frame_buffer s.prev_vad_unit_result audio_data
    let vad_result := cu.1
    let buf1 := cu.2
    let ru := rollbackUpdate cfg.start_frame_rollback s.vad_result_buffer audio_data
    let overflow_data := ru.1
    let rbuf1 := ru.2
    match s.vad_state with
    | VADState.Idle =>
      let cnt := if vad_result then s.vad_unit_result_count + 1 else 0
      if cnt ≥ cfg.start_frame_num_thresh then
        (Except.ok ⟨VADState.Started, rbuf1⟩,
         { vad_unit_frame_buffer := buf1
           prev_vad_unit_result := vad_result
           vad_unit_result_count := cnt
           vad_state := VADState.Continue
           vad_result_buffer := []
           vad_unit_count := some 0 })
      else
        let data := if cfg.output_idle_frame then
            (match overflow_data with
             | some d => [d]
             | none => []) else []
        (Except.ok ⟨VADState.Idle, data⟩,
         { vad_unit_frame_buffer := buf1
           prev_vad_unit_result := vad_result
           vad_unit_result_count := cnt
           vad_state := VADState.Idle
           vad_result_buffer := rbuf1
           vad_unit_count := s.vad_unit_count })
    | VADState.Continue =>
      let cnt := if vad_result then 0 else s.vad_unit_result_count + 1
      if cnt ≥ cfg.end_frame_num_thresh then
        (Except.ok ⟨VADState.Ended, rbuf1⟩,
         { vad_unit_frame_buffer := buf1
           prev_vad_unit_result := vad_result
           vad_unit_result_count := cnt
           vad_state := VADState.Idle
           vad_result_buffer := []
           vad_unit_count := some 0 })
      else
        (Except.ok ⟨VADState.Continue, rbuf1⟩,
         { vad_unit_frame_buffer := buf1
           prev_vad_unit_result := vad_result
           vad_unit_result_count := cnt
           vad_state := VADState.Continue
           vad_result_buffer := []
           vad_unit_count := s.vad_unit_count })
    | other =>
      (Except.error ProcError.invalidVadState,
       { vad_unit_frame_buffer := buf1
         prev_vad_unit_result := vad_result
         vad_unit_result_count := s.vad_unit_result_count
         vad_state := other
         vad_result_buffer := rbuf1
         vad_unit_count := s.vad_unit_count })

/-- Feed a sequence of frames one `process` call at a time, collecting the
one event per call; a raised error stops the run (it propagates to the
caller) with the state as the engine left it. -/
def processList (cfg : Config) (s : EngineState) (frames : List Frame) :
    Except ProcError (List VADData) × EngineState :=
  match frames with
  | [] => (Except.ok [], s)
  | f :: rest =>
    match process cfg s f with
    | (Except.error e, s') => (Except.error e, s')
    | (Except.ok ev, s') =>
      match processList cfg s' rest with
      | (Except.ok evs, s'') => (Except.ok (ev :: evs), s'')
      | (Except.error e, s'') => (Except.error e, s'')

/-! ### Concrete instances used by witnesses and counterexamples

A one-byte frame (`sample_width = 1`, `samples_per_frame = 1`), window
ratio 1, and a classifier that reports speech exactly when the first byte of
the window is `1`.  Thresholds are the source defaults (5 / 10 / 30). -/

/-- A concrete classifier: speech iff the window starts with byte `1`. -/
def testClassify (w : List Nat) : Bool := w.head?.getD 0 == 1

/-- Default-threshold configuration with one-byte frames and window ratio 1. -/
def tc : Config :=
  { sample_width := 1
    samples_per_frame := 1
    vad_unit_frame_ratio := 1
    classify := testClassify }

/-- A positively classified frame for `tc`. -/
def pf : Frame := [1]

/-- A negatively classified frame for `tc`. -/
def nf : Frame := [0]

/-! ### Step characterization lemmas -/

/-- In a macro-state outside {Idle, Continue}, `process` never returns a
result (the defensive `ValueError` branch). -/
lemma process_bad_state (cfg : Config) (s : EngineState) (f : Frame)
    (ev : VADData) (s' : EngineState)
    (h : process cfg s f = (Except.ok ev, s'))
    (hst : s.vad_state = VADState.Started ∨ s.vad_state = VADState.Ended) :
    False := by
  by_cases hsz : f.length = cfg.frameBytes
  · rcases hst with hst | hst <;>
      simp [process, hsz, hst] at h
  · simp [process, hsz] at h

/-- Full characterization of a successful `process` call from resting state
`Idle`. -/
lemma process_idle_cases (cfg : Config) (s : EngineState) (f : Frame)
    (ev : VADData) (s' : EngineState)
    (h : process cfg s f = (Except.ok ev, s'))
    (hst : s.vad_state = VADState.Idle) :
    s'.vad_unit_frame_buffer
        = (classifierUpdate cfg s.vad_unit_frame_buffer s.prev_vad_unit_result f).2 ∧
    s'.prev_vad_unit_result
        = (classifierUpdate cfg s.vad_unit_frame_buffer s.prev_vad_unit_result f).1 ∧
    s'.vad_unit_result_count
        = (if (classifierUpdate cfg s.vad_unit_frame_buffer s.prev_vad_unit_result f).1
           then s.vad_unit_result_count + 1 else 0) ∧
    (if s'.vad_unit_result_count ≥ cfg.start_frame_num_thresh then
       ev.state = VADState.Started ∧
       ev.data = (rollbackUpdate cfg.start_frame_rollback s.vad_result_buffer f).2 ∧
       s'.vad_state = VADState.Continue ∧
       s'.vad_result_buffer = [] ∧
       s'.vad_unit_count = some 0
     else
       ev.state = VADState.Idle ∧
       s'.vad_state = VADState.Idle ∧
       s'.vad_result_buffer = (rollbackUpdate cfg.start_frame_rollback s.vad_result_buffer f).2 ∧
       s'.vad_unit_count = s.vad_unit_count) := by
  by_cases hsz : f.length = cfg.frameBytes
  · unfold process at h
    rw [if_neg (by simp [hsz])] at h
    rw [hst] at h
    simp only [] at h
    cases hres : (classifierUpdate cfg s.vad_unit_frame_buffer s.prev_vad_unit_result f).1 <;>
      rw [hres] at h <;> simp only [Bool.false_eq_true, if_true, if_false] at h
    · by_cases hcnt : 0 ≥ cfg.start_frame_num_thresh
      · rw [if_pos hcnt] at h
        rw [Prod.mk.injEq, Except.ok.injEq] at h
        obtain ⟨rfl, rfl⟩ := h
        simp [hcnt, hres]
      · rw [if_neg hcnt] at h
        rw [Prod.mk.injEq, Except.ok.injEq] at h
        obtain ⟨rfl, rfl⟩ := h
        simp [hcnt, hres]
    · by_cases hcnt : s.vad_unit_result_count + 1 ≥ cfg.start_frame_num_thresh
      · rw [if_pos hcnt] at h
        rw [Prod.mk.injEq, Except.ok.injEq] at h
        obtain ⟨rfl, rfl⟩ := h
        simp [hcnt, hres]
      · rw [if_neg hcnt] at h
        rw [Prod.mk.injEq, Except.ok.injEq] at h
        obtain ⟨rfl, rfl⟩ := h
        simp [hcnt, hres]
  · simp [process, hsz] at h

/-- Full characterization of a successful `process` call from resting state
`Continue`. -/
lemma process_continue_cases (cfg : Config) (s : EngineState) (f : Frame)
    (ev : VADData) (s' : EngineState)
    (h : process cfg s f = (Except.ok ev, s'))
    (hst : s.vad_state = VADState.Continue) :
    s'.vad_unit_frame_buffer
        = (classifierUpdate cfg s.vad_unit_frame_buffer s.prev_vad_unit_result f).2 ∧
    s'.prev_vad_unit_result
        = (classifierUpdate cfg s.vad_unit_frame_buffer s.prev_vad_unit_result f).1 ∧
    s'.vad_unit_result_count
        = (if (classifierUpdate cfg s.vad_unit_frame_buffer s.prev_vad_unit_result f).1
           then 0 else s.vad_unit_result_count + 1) ∧
    ev.data = (rollbackUpdate cfg.start_frame_rollback s.vad_result_buffer f).2 ∧
    s'.vad_result_buffer = [] ∧
    (if s'.vad_unit_result_count ≥ cfg.end_frame_num_thresh then
       ev.state = VADState.Ended ∧ s'.vad_state = VADState.Idle ∧ s'.vad_unit_count = some 0
     else
       ev.state = VADState.Continue ∧ s'.vad_state = VADState.Continue ∧
       s'.vad_unit_count = s.vad_unit_count) := by
  by_cases hsz : f.length = cfg.frameBytes
  · unfold process at h
    rw [if_neg (by simp [hsz])] at h
    rw [hst] at h
    simp only [] at h
    cases hres : (classifierUpdate cfg s.vad_unit_frame_buffer s.prev_vad_unit_result f).1 <;>
      rw [hres] at h <;> simp only [Bool.false_eq_true, if_true, if_false] at h
    · by_cases hcnt : s.vad_unit_result_count + 1 ≥ cfg.end_frame_num_thresh
      · rw [if_pos hcnt] at h
        rw [Prod.mk.injEq, Except.ok.injEq] at h
        obtain ⟨rfl, rfl⟩ := h
        simp [hcnt, hres]
      · rw [if_neg hcnt] at h
        rw [Prod.mk.injEq, Except.ok.injEq] at h
        obtain ⟨rfl, rfl⟩ := h
        simp [hcnt, hres]
    · by_cases hcnt : 0 ≥ cfg.end_frame_num_thresh
      · rw [if_pos hcnt] at h
        rw [Prod.mk.injEq, Except.ok.injEq] at h
        obtain ⟨rfl, rfl⟩ := h
        simp [hcnt, hres]
      · rw [if_neg hcnt] at h
        rw [Prod.mk.injEq, Except.ok.injEq] at h
        obtain ⟨rfl, rfl⟩ := h
        simp [hcnt, hres]
  · simp [process, hsz] at h

/-- With a frame of the wrong byte length, `process` raises the
invalid-frame-size assertion and leaves the state untouched. -/
lemma process_badsize (cfg : Config) (s : EngineState) (f : Frame)
    (hne : f.length ≠ cfg.sample_width * cfg.samples_per_frame) :
    process cfg s f
      = (Except.error (ProcError.invalidFrameSize f.length cfg.frameBytes), s) := by
  unfold process
  rw [if_pos (by simpa [Config.frameBytes] using hne)]

/-- `classifierUpdate` written without the `let`. -/
lemma classifierUpdate_spec (cfg : Config) (buf : List Frame) (prev : Bool) (f : Frame) :
    classifierUpdate cfg buf prev f
      = if (buf ++ [f]).length = cfg.vad_unit_frame_ratio
        then (cfg.classify (buf ++ [f]).flatten, [])
        else (prev, buf ++ [f]) := rfl

/-- Length of the rollback buffer after one update: FIFO eviction caps it at
the rollback capacity. -/
lemma rollbackUpdate_snd_length (r : Nat) (rbuf : List Frame) (f : Frame)
    (h : rbuf.length ≤ r) :
    ((rollbackUpdate r rbuf f).2).length = min (rbuf.length + 1) r := by
  unfold rollbackUpdate
  simp only []
  split
  · next hgt =>
    rw [List.length_tail]
    simp only [List.length_append, List.length_singleton] at hgt ⊢
    omega
  · next hgt =>
    simp only [List.length_append, List.length_singleton] at hgt ⊢
    omega

/-- Updating an empty rollback buffer of positive capacity keeps just the
new frame and evicts nothing. -/
lemma rollbackUpdate_nil (r : Nat) (f : Frame) (h : 1 ≤ r) :
    rollbackUpdate r [] f = (none, [f]) := by
  unfold rollbackUpdate
  simp only [List.nil_append]
  rw [if_neg (by simp; omega)]

/-- A successful `process` call always stores the classification it used in
`prev_vad_unit_result` and the drained-or-extended window buffer in
`vad_unit_frame_buffer`, whatever the resting state was. -/
lemma process_ok_classifier_fields (cfg : Config) (s : EngineState) (f : Frame)
    (ev : VADData) (s' : EngineState)
    (h : process cfg s f = (Except.ok ev, s')) :
    s'.vad_unit_frame_buffer
        = (classifierUpdate cfg s.vad_unit_frame_buffer s.prev_vad_unit_result f).2 ∧
    s'.prev_vad_unit_result
        = (classifierUpdate cfg s.vad_unit_frame_buffer s.prev_vad_unit_result f).1 := by
  rcases hst : s.vad_state
  case Idle =>
    have hc := process_idle_cases cfg s f ev s' h hst
    exact ⟨hc.1, hc.2.1⟩
  case Continue =>
    have hc := process_continue_cases cfg s f ev s' h hst
    exact ⟨hc.1, hc.2.1⟩
  case Started => exact (process_bad_state cfg s f ev s' h (Or.inl hst)).elim
  case Ended => exact (process_bad_state cfg s f ev s' h (Or.inr hst)).elim

/-- In a resting state, a correctly sized frame is always processed
successfully and leaves the engine in a resting state. -/
lemma process_ok_of_good (cfg : Config) (s : EngineState) (f : Frame)
    (hsz : f.length = cfg.sample_width * cfg.samples_per_frame)
    (hg : s.vad_state = VADState.Idle ∨ s.vad_state = VADState.Continue) :
    ∃ ev s', process cfg s f = (Except.ok ev, s') ∧
      (s'.vad_state = VADState.Idle ∨ s'.vad_state = VADState.Continue) := by
  rcases hg with hst | hst
  · unfold process
    rw [if_neg (by simp [Config.frameBytes, hsz])]
    rw [hst]
    simp only []
    by_cases hcnt :
        (if (classifierUpdate cfg s.vad_unit_frame_buffer s.prev_vad_unit_result f).1
         then s.vad_unit_result_count + 1 else 0) ≥ cfg.start_frame_num_thresh
    · rw [if_pos hcnt]
      exact ⟨_, _, rfl, Or.inr rfl⟩
    · rw [if_neg hcnt]
      exact ⟨_, _, rfl, Or.inl rfl⟩
  · unfold process
    rw [if_neg (by simp [Config.frameBytes, hsz])]
    rw [hst]
    simp only []
    by_cases hcnt :
        (if (classifierUpdate cfg s.vad_unit_frame_buffer s.prev_vad_unit_result f).1
         then 0 else s.vad_unit_result_count + 1) ≥ cfg.end_frame_num_thresh
    · rw [if_pos hcnt]
      exact ⟨_, _, rfl, Or.inl rfl⟩
    · rw [if_neg hcnt]
      exact ⟨_, _, rfl, Or.inr rfl⟩

/-! ### Lemmas about `processList` -/

/-- Composing one successful step with a successful rest of the run. -/
lemma processList_ok_cons (cfg : Config) (s : EngineState) (f : Frame)
    (rest : List Frame) (ev : VADData) (s' : EngineState) (evs : List VADData)
    (s'' : EngineState)
    (h1 : process cfg s f = (Except.ok ev, s'))
    (h2 : processList cfg s' rest = (Except.ok evs, s'')) :
    processList cfg s (f :: rest) = (Except.ok (ev :: evs), s'') := by
  simp only [processList, h1, h2]

/-- Inverting a successful run on a nonempty frame list. -/
lemma processList_cons_inv (cfg : Config) (s : EngineState) (f : Frame)
    (rest : List Frame) (evs : List VADData) (s'' : EngineState)
    (h : processList cfg s (f :: rest) = (Except.ok evs, s'')) :
    ∃ ev s' evs', process cfg s f = (Except.ok ev, s') ∧
      processList cfg s' rest = (Except.ok evs', s'') ∧ evs = ev :: evs' := by
  rcases hp : process cfg s f with ⟨e, s1⟩
  cases e with
  | error err => simp [processList, hp] at h
  | ok ev =>
    rcases hr : processList cfg s1 rest with ⟨e2, s2⟩
    cases e2 with
    | error err => simp [processList, hp, hr] at h
    | ok evs' =>
      simp only [processList, hp, hr] at h
      rw [Prod.mk.injEq, Except.ok.injEq] at h
      obtain ⟨rfl, rfl⟩ := h
      exact ⟨ev, s1, evs', rfl, hr, rfl⟩

/-- A run on the empty list does nothing. -/
lemma processList_nil_inv (cfg : Config) (s : EngineState) (evs : List VADData)
    (s' : EngineState)
    (h : processList cfg s [] = (Except.ok evs, s')) : evs = [] ∧ s' = s := by
  simp only [processList] at h
  rw [Prod.mk.injEq, Except.ok.injEq] at h
  exact ⟨h.1.symm, h.2.symm⟩

/-- From a resting state, a run over correctly sized frames succeeds, emits
one event per frame, and ends in a resting state. -/
lemma processList_ok_of_good (cfg : Config) (frames : List Frame) :
    ∀ s : EngineState,
      (s.vad_state = VADState.Idle ∨ s.vad_state = VADState.Continue) →
      (∀ f ∈ frames, f.length = cfg.sample_width * cfg.samples_per_frame) →
      ∃ evs s', processList cfg s frames = (Except.ok evs, s') ∧
        evs.length = frames.length ∧
        (s'.vad_state = VADState.Idle ∨ s'.vad_state = VADState.Continue) := by
  induction frames with
  | nil => exact fun s hg _ => ⟨[], s, rfl, rfl, hg⟩
  | cons f rest ih =>
    intro s hg hsz
    obtain ⟨ev, s1, hp, hg1⟩ := process_ok_of_good cfg s f (hsz f (by simp)) hg
    obtain ⟨evs, s2, hr, hlen, hg2⟩ :=
      ih s1 hg1 (fun g hgmem => hsz g (by simp [hgmem]))
    exact ⟨ev :: evs, s2, processList_ok_cons cfg s f rest ev s1 evs s2 hp hr,
      by simp [hlen], hg2⟩

/-! ### The phantom `vad_unit_count` attribute never influences behaviour -/

/-- Forget the phantom `vad_unit_count` attribute. -/
def erasePhantom (s : EngineState) : EngineState :=
  { s with vad_unit_count := none }

/-- Two states differing only in the phantom attribute produce the same
result and stay in agreement after one `process` call. -/
lemma process_agree (cfg : Config) (f : Frame) (s t : EngineState)
    (h : erasePhantom s = erasePhantom t) :
    (process cfg s f).1 = (process cfg t f).1 ∧
    erasePhantom (process cfg s f).2 = erasePhantom (process cfg t f).2 := by
  obtain ⟨b, p, c, st, rb, u⟩ := s
  obtain ⟨b', p', c', st', rb', u'⟩ := t
  simp only [erasePhantom, EngineState.mk.injEq, and_true] at h
  obtain ⟨rfl, rfl, rfl, rfl, rfl⟩ := h
  by_cases hsz : f.length = cfg.frameBytes
  · unfold process
    rw [if_neg (by simp [hsz]), if_neg (by simp [hsz])]
    cases st <;> simp only [] <;> constructor <;>
      first
        | trivial
        | (split_ifs <;> rfl)
  · unfold process
    rw [if_pos (by simp [hsz]), if_pos (by simp [hsz])]
    exact ⟨rfl, by simp [erasePhantom]⟩

/-- Two states differing only in the phantom attribute produce the same
event/error sequence and stay in agreement over any run. -/
lemma processList_agree (cfg : Config) (frames : List Frame) :
    ∀ s t : EngineState, erasePhantom s = erasePhantom t →
    (processList cfg s frames).1 = (processList cfg t frames).1 ∧
    erasePhantom (processList cfg s frames).2
      = erasePhantom (processList cfg t frames).2 := by
  induction frames with
  | nil => exact fun s t h => ⟨rfl, h⟩
  | cons f rest ih =>
    intro s t h
    obtain ⟨h1, h2⟩ := process_agree cfg f s t h
    rcases hp : process cfg s f with ⟨e, s1⟩
    rcases hq : process cfg t f with ⟨e', t1⟩
    rw [hp, hq] at h1 h2
    simp only [] at h1 h2
    cases e with
    | error err =>
      cases e' with
      | error err' =>
        have herr : err = err' := by simpa using h1
        subst herr
        simp only [processList, hp, hq]
        exact ⟨trivial, h2⟩
      | ok ev' => exact absurd h1 (by simp)
    | ok ev =>
      cases e' with
      | error err' => exact absurd h1 (by simp)
      | ok ev' =>
        obtain ⟨h3, h4⟩ := ih s1 t1 h2
        rw [Except.ok.injEq] at h1
        subst h1
        rcases hr : processList cfg s1 rest with ⟨e2, s2⟩
        rcases hr' : processList cfg t1 rest with ⟨e3, t2⟩
        rw [hr, hr'] at h3 h4
        simp only [] at h3 h4
        subst h3
        simp only [processList, hp, hq, hr, hr']
        cases e2 with
        | error err => exact ⟨rfl, h4⟩
        | ok evs => exact ⟨rfl, h4⟩

/-! ### Run-level invariants -/

/-- While every emitted event is tagged `Idle`, the engine stays in `Idle`
and the rollback buffer holds `min(frames seen, capacity)` frames. -/
lemma processList_idle_run (cfg : Config) (frames : List Frame) :
    ∀ (k : Nat) (s : EngineState) (evs : List VADData) (s' : EngineState),
      s.vad_state = VADState.Idle →
      s.vad_result_buffer.length = min k cfg.start_frame_rollback →
      processList cfg s frames = (Except.ok evs, s') →
      (∀ ev ∈ evs, ev.state = VADState.Idle) →
      s'.vad_state = VADState.Idle ∧
      s'.vad_result_buffer.length
        = min (k + frames.length) cfg.start_frame_rollback := by
  induction frames with
  | nil =>
    intro k s evs s' h1 h2 h3 _
    obtain ⟨-, rfl⟩ := processList_nil_inv cfg s evs s' h3
    exact ⟨h1, by simpa using h2⟩
  | cons f rest ih =>
    intro k s evs s' h1 h2 h3 hIdle
    obtain ⟨ev, s1, evs', hp, hr, rfl⟩ := processList_cons_inv cfg s f rest _ s' h3
    have hev : ev.state = VADState.Idle := hIdle ev (by simp)
    obtain ⟨-, -, -, hbr⟩ := process_idle_cases cfg s f ev s1 hp h1
    by_cases hc : s1.vad_unit_result_count ≥ cfg.start_frame_num_thresh
    · rw [if_pos hc] at hbr
      rw [hbr.1] at hev
      exact absurd hev (by simp)
    · rw [if_neg hc] at hbr
      obtain ⟨-, hst1, hrb1, -⟩ := hbr
      have hlen1 : s1.vad_result_buffer.length
          = min (k + 1) cfg.start_frame_rollback := by
        rw [hrb1, rollbackUpdate_snd_length _ _ _ (by omega)]
        rw [h2]
        omega
      have hrec := ih (k + 1) s1 evs' s' hst1 hlen1 hr
        (fun e he => hIdle e (by simp [he]))
      refine ⟨hrec.1, ?_⟩
      have h5 := hrec.2
      simp only [List.length_cons]
      omega

/-- Whenever the engine rests in `Continue`, the output buffer is empty:
it is cleared by the very emission (`Started`, `Continue` or `Ended`) that
ended the previous call. -/
lemma processList_continue_buffer (cfg : Config) (frames : List Frame) :
    ∀ (s : EngineState) (evs : List VADData) (s' : EngineState),
      (s.vad_state = VADState.Idle ∨ s.vad_state = VADState.Continue) →
      (s.vad_state = VADState.Continue → s.vad_result_buffer = []) →
      processList cfg s frames = (Except.ok evs, s') →
      (s'.vad_state = VADState.Idle ∨ s'.vad_state = VADState.Continue) ∧
      (s'.vad_state = VADState.Continue → s'.vad_result_buffer = []) := by
  induction frames with
  | nil =>
    intro s evs s' hg hc h
    obtain ⟨-, rfl⟩ := processList_nil_inv cfg s evs s' h
    exact ⟨hg, hc⟩
  | cons f rest ih =>
    intro s evs s' hg hc h
    obtain ⟨ev, s1, evs', hp, hr, rfl⟩ := processList_cons_inv cfg s f rest _ s' h
    have hstep : (s1.vad_state = VADState.Idle ∨ s1.vad_state = VADState.Continue) ∧
        (s1.vad_state = VADState.Continue → s1.vad_result_buffer = []) := by
      rcases hg with hst | hst
      · obtain ⟨-, -, -, hbr⟩ := process_idle_cases cfg s f ev s1 hp hst
        by_cases hcc : s1.vad_unit_result_count ≥ cfg.start_frame_num_thresh
        · rw [if_pos hcc] at hbr
          exact ⟨Or.inr hbr.2.2.1, fun _ => hbr.2.2.2.1⟩
        · rw [if_neg hcc] at hbr
          refine ⟨Or.inl hbr.2.1, fun hcon => ?_⟩
          rw [hbr.2.1] at hcon
          exact absurd hcon (by simp)
      · obtain ⟨-, -, -, -, hb5, hbr⟩ := process_continue_cases cfg s f ev s1 hp hst
        by_cases hcc : s1.vad_unit_result_count ≥ cfg.end_frame_num_thresh
        · rw [if_pos hcc] at hbr
          exact ⟨Or.inl hbr.2.1, fun _ => hb5⟩
        · rw [if_neg hcc] at hbr
          exact ⟨Or.inr hbr.2.1, fun _ => hb5⟩
    exact ih s1 evs' s' hstep.1 hstep.2 hr

/-- The classifier input buffer is drained exactly when it reaches the
window ratio, so between calls it always holds fewer frames than the
ratio. -/
lemma processList_classifier_buffer (cfg : Config) (frames : List Frame)
    (hratio : 1 ≤ cfg.vad_unit_frame_ratio) :
    ∀ (s : EngineState) (evs : List VADData) (s' : EngineState),
      s.vad_unit_frame_buffer.length < cfg.vad_unit_frame_ratio →
      processList cfg s frames = (Except.ok evs, s') →
      s'.vad_unit_frame_buffer.length < cfg.vad_unit_frame_ratio := by
  induction frames with
  | nil =>
    intro s evs s' hlt h
    obtain ⟨-, rfl⟩ := processList_nil_inv cfg s evs s' h
    exact hlt
  | cons f rest ih =>
    intro s evs s' hlt h
    obtain ⟨ev, s1, evs', hp, hr, rfl⟩ := processList_cons_inv cfg s f rest _ s' h
    have hbuf := (process_ok_classifier_fields cfg s f ev s1 hp).1
    have hlt1 : s1.vad_unit_frame_buffer.length < cfg.vad_unit_frame_ratio := by
      rw [hbuf, classifierUpdate_spec]
      split
      · next => simpa using hratio
      · next hfull =>
        simp only [List.length_append, List.length_singleton] at hfull ⊢
        omega
    exact ih s1 evs' s' hlt1 hr

/-- Before the classifier input buffer first fills (and in particular under
`start_frame_threshold ≥ 1`), every call reuses the initial `false`
classification, emits an `Idle` event, and keeps the counter at zero. -/
lemma processList_prefix_idle (cfg : Config) (frames : List Frame)
    (hthresh : 1 ≤ cfg.start_frame_num_thresh) :
    ∀ s : EngineState,
      s.vad_state = VADState.Idle →
      s.prev_vad_unit_result = false →
      s.vad_unit_result_count = 0 →
      s.vad_unit_frame_buffer.length + frames.length + 1 ≤ cfg.vad_unit_frame_ratio →
      (∀ f ∈ frames, f.length = cfg.sample_width * cfg.samples_per_frame) →
      ∃ evs s', processList cfg s frames = (Except.ok evs, s') ∧
        evs.map (fun e => e.state) = List.replicate frames.length VADState.Idle ∧
        s'.prev_vad_unit_result = false ∧
        s'.vad_unit_result_count = 0 ∧
        s'.vad_state = VADState.Idle ∧
        s'.vad_unit_frame_buffer.length
          = s.vad_unit_frame_buffer.length + frames.length := by
  induction frames with
  | nil =>
    intro s h1 h2 h3 _ _
    exact ⟨[], s, rfl, rfl, h2, h3, h1, by simp⟩
  | cons f rest ih =>
    intro s h1 h2 h3 hbudget hsz
    obtain ⟨ev, s1, hp, -⟩ :=
      process_ok_of_good cfg s f (hsz f (by simp)) (Or.inl h1)
    obtain ⟨hbuf, hprev, hcnt, hbr⟩ := process_idle_cases cfg s f ev s1 hp h1
    have hlapp : (s.vad_unit_frame_buffer ++ [f]).length
        = s.vad_unit_frame_buffer.length + 1 := by simp
    have hlcons : (f :: rest).length = rest.length + 1 := by simp
    have hnotfull : ¬ ((s.vad_unit_frame_buffer ++ [f]).length
        = cfg.vad_unit_frame_ratio) := by omega
    have hcu : classifierUpdate cfg s.vad_unit_frame_buffer s.prev_vad_unit_result f
        = (s.prev_vad_unit_result, s.vad_unit_frame_buffer ++ [f]) := by
      rw [classifierUpdate_spec, if_neg hnotfull]
    have hprev1 : s1.prev_vad_unit_result = false := by
      rw [hprev, hcu, h2]
    have hcnt1 : s1.vad_unit_result_count = 0 := by
      rw [hcnt, hcu, h2]
      simp
    have hbuf1 : s1.vad_unit_frame_buffer = s.vad_unit_frame_buffer ++ [f] := by
      rw [hbuf, hcu]
    have hnc : ¬ (s1.vad_unit_result_count ≥ cfg.start_frame_num_thresh) := by
      rw [hcnt1]
      omega
    rw [if_neg hnc] at hbr
    obtain ⟨hev, hst1, -, -⟩ := hbr
    obtain ⟨evs, s', hrun, hmap, hp2, hc2, hs2, hb2⟩ :=
      ih s1 hst1 hprev1 hcnt1
        (by rw [hbuf1]; omega)
        (fun g hgmem => hsz g (by simp [hgmem]))
    refine ⟨ev :: evs, s', processList_ok_cons cfg s f rest ev s1 evs s' hp hrun,
      ?_, hp2, hc2, hs2, ?_⟩
    · simp [hmap, hev, List.replicate_succ]
    · rw [hb2, hbuf1]
      omega

/-! ### Error classification helpers -/

/-- Recognizes the invalid-frame-size assertion failure. -/
def isInvalidFrameSizeErr : Except ProcError VADData → Bool
  | Except.error (ProcError.invalidFrameSize _ _) => true
  | _ => false

/-- With a correctly sized frame, `process` never raises the
invalid-frame-size assertion, whatever the state. -/
lemma process_sized_not_sizeErr (cfg : Config) (s : EngineState) (f : Frame)
    (hsz : f.length = cfg.sample_width * cfg.samples_per_frame) :
    isInvalidFrameSizeErr (process cfg s f).1 = false := by
  unfold process
  rw [if_neg (by simp [Config.frameBytes, hsz])]
  cases hst : s.vad_state <;> simp only [] <;>
    first
      | rfl
      | (split_ifs <;> rfl)

/-- A state tag drawn from {Idle, Started, Continue, Ended}. -/
def isValidTag (v : VADState) : Bool :=
  match v with
  | VADState.Idle => true
  | VADState.Started => true
  | VADState.Ended => true
  | VADState.Continue => true

/-- Every `VADState` value is one of the four event tags. -/
lemma isValidTag_true (v : VADState) : isValidTag v = true := by
  cases v <;> rfl

/-! ### Claims -/

/-- Claim C1 (code bug exhibited).  The claim says the consecutive counter is
reset to 0 as part of the Started/Ended transitions.  In the code, lines 161
and 175 assign `0` to the misspelled attribute `vad_unit_count` instead of
`vad_unit_result_count`, so the counter is NOT reset: with default
thresholds, after five positive frames the Started transition has fired
(state Continue) yet the counter still reads 5, and after 25 further
negative frames the Ended transition has fired (state Idle) with the
counter at 30 — not 0 in either case.  The phantom attribute holds the 0. -/
theorem C1_counter_not_reset :
    (processList tc initState (List.replicate 5 pf)).1.map
        (fun evs => evs.map (fun ev => ev.state))
      = Except.ok (List.replicate 4 VADState.Idle ++ [VADState.Started]) ∧
    (processList tc initState (List.replicate 5 pf)).2.vad_state
      = VADState.Continue ∧
    (processList tc initState (List.replicate 5 pf)).2.vad_unit_result_count = 5 ∧
    (processList tc initState (List.replicate 5 pf)).2.vad_unit_count = some 0 ∧
    (processList tc initState
        (List.replicate 5 pf ++ List.replicate 25 nf)).2.vad_state
      = VADState.Idle ∧
    (processList tc initState
        (List.replicate 5 pf ++ List.replicate 25 nf)).2.vad_unit_result_count
      = 30 := by
  decide

/-- Claim C2 (code bug exhibited).  The claimed scenario expects, after
`Started`, 29 `Continue` events and an `Ended` on the 30th consecutive
negative frame.  Because the counter is not reset at the Started transition
(see C1), it resumes from 5, so the engine emits `Ended` already on the
25th negative frame after Started, and the 26th through 30th negative
frames are plain `Idle` events. -/
theorem C2_ended_on_25th_negative :
    (processList tc initState (List.replicate 5 pf ++ List.replicate 25 nf)).1.map
        (fun evs => evs.map (fun ev => ev.state))
      = Except.ok (List.replicate 4 VADState.Idle ++ [VADState.Started]
          ++ List.replicate 24 VADState.Continue ++ [VADState.Ended]) ∧
    (processList tc initState (List.replicate 5 pf ++ List.replicate 30 nf)).1.map
        (fun evs => evs.map (fun ev => ev.state))
      = Except.ok (List.replicate 4 VADState.Idle ++ [VADState.Started]
          ++ List.replicate 24 VADState.Continue ++ [VADState.Ended]
          ++ List.replicate 5 VADState.Idle) := by
  decide

/-- Claim C3: for every sequence of N correctly sized frames fed from a
resting state, `process` succeeds on every call, exactly N events are
produced (one per call), and every event's tag is one of
{Idle, Started, Continue, Ended}. -/
theorem C3_frame_count_invariant (cfg : Config) (s : EngineState)
    (frames : List Frame)
    (hg : s.vad_state = VADState.Idle ∨ s.vad_state = VADState.Continue)
    (hsz : ∀ f ∈ frames, f.length = cfg.sample_width * cfg.samples_per_frame) :
    (processList cfg s frames).1.map
        (fun evs => (evs.length, evs.all (fun ev => isValidTag ev.state)))
      = Except.ok (frames.length, true) := by
  obtain ⟨evs, s', hrun, hlen, -⟩ := processList_ok_of_good cfg frames s hg hsz
  rw [hrun]
  simp [Except.map, hlen, List.all_eq_true, isValidTag_true]

/-- Witness for C3 at a concrete run (two one-byte frames through `tc`). -/
theorem C3_witness :
    (processList tc initState [nf, pf]).1.map
        (fun evs => (evs.length, evs.all (fun ev => isValidTag ev.state)))
      = Except.ok (([nf, pf] : List Frame).length, true) :=
  C3_frame_count_invariant tc initState [nf, pf] (Or.inl rfl) (by decide)

/-- Claim C7: after `reset`, any frame sequence produces exactly the same
events (and errors) as from a freshly constructed engine with the same
configuration and classifier.  The two runs may differ only in the phantom
`vad_unit_count` attribute, which is never read. -/
theorem C7_reset_equivalence (cfg : Config) (s0 : EngineState)
    (frames : List Frame) :
    (processList cfg (reset s0) frames).1
      = (processList cfg initState frames).1 :=
  (processList_agree cfg frames (reset s0) initState rfl).1

/-- Claim C8: `process` fails with the invalid-frame-size error exactly when
the input length differs from `sample_width * samples_per_frame`, and in
that case the assertion fires before any mutation, leaving the state
unchanged; a correctly sized frame never raises this error. -/
theorem C8_frame_size_check (cfg : Config) (s : EngineState) (f : Frame) :
    (isInvalidFrameSizeErr (process cfg s f).1 = true
        ↔ f.length ≠ cfg.sample_width * cfg.samples_per_frame) ∧
    (f.length ≠ cfg.sample_width * cfg.samples_per_frame →
      process cfg s f
        = (Except.error (ProcError.invalidFrameSize f.length cfg.frameBytes), s)) := by
  by_cases hsz : f.length = cfg.sample_width * cfg.samples_per_frame
  · refine ⟨⟨?_, fun hne => absurd hsz hne⟩, fun hne => absurd hsz hne⟩
    intro hbad
    rw [process_sized_not_sizeErr cfg s f hsz] at hbad
    exact absurd hbad (by simp)
  · have hb := process_badsize cfg s f hsz
    refine ⟨?_, fun _ => hb⟩
    rw [hb]
    simp [isInvalidFrameSizeErr, hsz]

/-- Witness for C8: a 2-byte frame against the 1-byte frame size of `tc`
raises the error and leaves the fresh state untouched; the 1-byte frame
does not raise it. -/
theorem C8_witness :
    isInvalidFrameSizeErr (process tc initState [0, 0]).1 = true ∧
    process tc initState [0, 0]
      = (Except.error
          (ProcError.invalidFrameSize (([0, 0] : Frame).length) tc.frameBytes),
         initState) ∧
    isInvalidFrameSizeErr (process tc initState nf).1 = false := by
  refine ⟨(C8_frame_size_check tc initState [0, 0]).1.mpr (by decide),
    (C8_frame_size_check tc initState [0, 0]).2 (by decide), ?_⟩
  cases hb : isInvalidFrameSizeErr (process tc initState nf).1
  · rfl
  · exact absurd ((C8_frame_size_check tc initState nf).1.mp hb) (by decide)

/-- Claim C4: from a fresh engine that has emitted only `Idle` events, if the
next frame triggers a `Started` emission, its payload length equals
`min(start_rollback_frames, total frames processed so far)`, the current
frame included. -/
theorem C4_rollback_completeness (cfg : Config) (frames : List Frame)
    (f : Frame) (evs : List VADData) (s : EngineState) (ev : VADData)
    (s' : EngineState)
    (h1 : processList cfg initState frames = (Except.ok evs, s))
    (hIdle : ∀ e ∈ evs, e.state = VADState.Idle)
    (h2 : process cfg s f = (Except.ok ev, s'))
    (hStart : ev.state = VADState.Started) :
    ev.data.length = min cfg.start_frame_rollback (frames.length + 1) := by
  obtain ⟨hs_idle, hs_len⟩ := processList_idle_run cfg frames 0 initState evs s
    rfl (by simp [initState]) h1 hIdle
  obtain ⟨-, -, -, hbr⟩ := process_idle_cases cfg s f ev s' h2 hs_idle
  by_cases hc : s'.vad_unit_result_count ≥ cfg.start_frame_num_thresh
  · rw [if_pos hc] at hbr
    rw [hbr.2.1, rollbackUpdate_snd_length _ _ _ (by omega)]
    rw [hs_len]
    omega
  · rw [if_neg hc] at hbr
    rw [hbr.1] at hStart
    exact absurd hStart (by simp)

/-- Frame sequence for the C4 witness: the spec scenario, 4 negative then
5 positive one-byte frames. -/
def c4frames : List Frame := List.replicate 4 nf ++ List.replicate 4 pf

/-- Engine state of the C4 witness run just before the onset frame. -/
def c4s : EngineState := (processList tc initState c4frames).2

/-- Events of the C4 witness run before the onset frame. -/
def c4evs : List VADData :=
  ((processList tc initState c4frames).1.toOption).getD []

/-- The `Started` event of the C4 witness run (frame 9). -/
def c4ev : VADData :=
  ((process tc c4s pf).1.toOption).getD ⟨VADState.Idle, []⟩

/-- Engine state of the C4 witness run after the onset frame. -/
def c4s' : EngineState := (process tc c4s pf).2

/-- Witness for C4: the spec scenario — frame 9 triggers `Started` with
payload length min(10, 9) = 9. -/
theorem C4_witness :
    c4ev.data.length = min tc.start_frame_rollback (c4frames.length + 1) :=
  C4_rollback_completeness tc c4frames pf c4evs c4s c4ev c4s'
    (by decide) (by decide) (by decide) (by decide)

/-- Configuration refuting C5 as literally stated: start threshold 1. -/
def c5ccfg : Config := { tc with start_frame_num_thresh := 1 }

/-- Reachable Idle state for the C5 counterexample: fresh engine after one
negatively classified frame. -/
def c5cs : EngineState := (process c5ccfg initState nf).2

/-- Configuration for the second C5 counterexample: default start threshold
5, end threshold 4, so the un-reset counter (the C1 typo at line 175) leaks
a value of 4 through the `Ended` transition into the `Idle` state. -/
def c5lcfg : Config := { tc with end_frame_num_thresh := 4 }

/-- Frames reaching the leaked `Idle` state under `c5lcfg`: 4 warming
positives, the `Started` frame, one positive zeroing the `Continue` counter,
then 4 negatives; the 4th negative fires `Ended` with counter 4. -/
def c5lframes : List Frame := List.replicate 6 pf ++ List.replicate 4 nf

/-- The leaked `Idle` state: counter 4 < 5, previous classification
negative, reached via the `Ended` emission. -/
def c5ls : EngineState := (processList c5lcfg initState c5lframes).2

/-- Counterexample to claim C5 as stated, in two independent ways.
First, with `start_frame_threshold = 1`: a fresh engine after one negative
frame is a reachable `Idle` state with counter 0 below the threshold, yet a
single positive classification emits `Started`.  Second, even with the
default `start_frame_threshold = 5` (≥ 2): because the counter is not reset
at the `Ended` transition (the C1 typo), with `end_frame_threshold = 4` the
run `c5lframes` ends `Ended` and rests in `Idle` with the leaked counter
4 < 5 and a negative previous classification, and a single positive
classification then emits `Started`. -/
theorem C5_counterexample :
    (c5cs.vad_state = VADState.Idle ∧
     c5cs.vad_unit_result_count < c5ccfg.start_frame_num_thresh ∧
     c5cs.prev_vad_unit_result = false ∧
     (process c5ccfg initState nf).1 = Except.ok ⟨VADState.Idle, []⟩ ∧
     (process c5ccfg c5cs pf).1 = Except.ok ⟨VADState.Started, [nf, pf]⟩) ∧
    (2 ≤ c5lcfg.start_frame_num_thresh ∧
     (processList c5lcfg initState c5lframes).1.map
         (fun evs => evs.map (fun e => e.state))
       = Except.ok (List.replicate 4 VADState.Idle ++ [VADState.Started]
           ++ List.replicate 4 VADState.Continue ++ [VADState.Ended]) ∧
     c5ls.vad_state = VADState.Idle ∧
     c5ls.vad_unit_result_count < c5lcfg.start_frame_num_thresh ∧
     c5ls.prev_vad_unit_result = false ∧
     ((process c5lcfg c5ls pf).1.toOption.getD ⟨VADState.Idle, []⟩).state
       = VADState.Started) := by
  decide

/-- Claim C5 (amended: requires `start_frame_threshold ≥ 2` and that the
preceding negative-classified call was made from resting state `Idle`):
then the counter is 0 after that call, a single further classification — in
particular a single spurious positive — can raise it to at most 1, and no
`Started` is emitted.  Both restrictions are forced by `C5_counterexample`:
with threshold 1 a single positive meets the threshold from counter 0, and
an `Idle` state reached through an `Ended` transition retains the un-reset
counter (the C1 typo), so with start 5 / end 4 a single positive after the
`Ended` emits `Started` even though the threshold is ≥ 2. -/
theorem C5_hysteresis (cfg : Config) (s : EngineState) (f0 f : Frame)
    (ev0 ev : VADData) (s1 s2 : EngineState)
    (hthresh : 2 ≤ cfg.start_frame_num_thresh)
    (hIdle0 : s.vad_state = VADState.Idle)
    (h0 : process cfg s f0 = (Except.ok ev0, s1))
    (hneg : s1.prev_vad_unit_result = false)
    (h1 : process cfg s1 f = (Except.ok ev, s2)) :
    ev.state ≠ VADState.Started := by
  obtain ⟨-, hprev, hcnt0, hbr0⟩ := process_idle_cases cfg s f0 ev0 s1 h0 hIdle0
  rw [hneg] at hprev
  rw [← hprev] at hcnt0
  simp only [Bool.false_eq_true, if_false] at hcnt0
  by_cases hc : s1.vad_unit_result_count ≥ cfg.start_frame_num_thresh
  · omega
  · rw [if_neg hc] at hbr0
    obtain ⟨-, hst1, -, -⟩ := hbr0
    obtain ⟨-, -, hcnt1, hbr1⟩ := process_idle_cases cfg s1 f ev s2 h1 hst1
    by_cases hc1 : s2.vad_unit_result_count ≥ cfg.start_frame_num_thresh
    · exfalso
      have hsmall : s2.vad_unit_result_count ≤ 1 := by
        rw [hcnt1]
        split
        · omega
        · omega
      omega
    · rw [if_neg hc1] at hbr1
      rw [hbr1.1]
      simp

/-- First step of the C5 witness run: one negative frame from fresh. -/
def c5ws1 : EngineState := (process tc initState nf).2

/-- Event of the first step of the C5 witness run. -/
def c5wev0 : VADData :=
  ((process tc initState nf).1.toOption).getD ⟨VADState.Started, []⟩

/-- Event of the second step of the C5 witness run (the spurious positive). -/
def c5wev : VADData :=
  ((process tc c5ws1 pf).1.toOption).getD ⟨VADState.Started, []⟩

/-- State after the second step of the C5 witness run. -/
def c5ws2 : EngineState := (process tc c5ws1 pf).2

/-- Witness for the amended C5 with the default threshold 5: a negative then
a spurious positive frame from fresh does not emit `Started`. -/
theorem C5_witness : c5wev.state ≠ VADState.Started :=
  C5_hysteresis tc initState nf pf c5wev0 c5wev c5ws1 c5ws2
    (by decide) rfl (by decide) (by decide) (by decide)

/-- Claim C6: the classifier input buffer always holds fewer frames than
`classifier_window_ratio`; on the call that fills it to exactly the ratio,
the classification used is `classify` applied to the byte concatenation of
the buffered frames in arrival order and the buffer is drained to empty;
on any other call the previous classification (initially `false`) is reused
unchanged and the frame is merely appended, with no classifier call. -/
theorem C6_classifier_window (cfg : Config) (frames : List Frame) (f : Frame)
    (evs : List VADData) (s : EngineState) (ev : VADData) (s' : EngineState)
    (hratio : 1 ≤ cfg.vad_unit_frame_ratio)
    (h1 : processList cfg initState frames = (Except.ok evs, s))
    (h2 : process cfg s f = (Except.ok ev, s')) :
    initState.prev_vad_unit_result = false ∧
    s.vad_unit_frame_buffer.length < cfg.vad_unit_frame_ratio ∧
    (if (s.vad_unit_frame_buffer ++ [f]).length = cfg.vad_unit_frame_ratio then
       s'.vad_unit_frame_buffer = [] ∧
       s'.prev_vad_unit_result
         = cfg.classify (s.vad_unit_frame_buffer ++ [f]).flatten
     else
       s'.vad_unit_frame_buffer = s.vad_unit_frame_buffer ++ [f] ∧
       s'.prev_vad_unit_result = s.prev_vad_unit_result) := by
  refine ⟨rfl,
    processList_classifier_buffer cfg frames hratio initState evs s
      (by simpa [initState] using hratio) h1, ?_⟩
  obtain ⟨hbuf, hprev⟩ := process_ok_classifier_fields cfg s f ev s' h2
  rw [classifierUpdate_spec] at hbuf hprev
  by_cases hfull :
      (s.vad_unit_frame_buffer ++ [f]).length = cfg.vad_unit_frame_ratio
  · rw [if_pos hfull] at hbuf hprev ⊢
    exact ⟨hbuf, hprev⟩
  · rw [if_neg hfull] at hbuf hprev ⊢
    exact ⟨hbuf, hprev⟩

/-- Configuration for the C6 witness: classifier window of two one-byte
engine frames. -/
def c6cfg : Config := { tc with vad_unit_frame_ratio := 2 }

/-- State of the C6 witness run after one frame (buffer holds one frame). -/
def c6s : EngineState := (processList c6cfg initState [nf]).2

/-- Events of the C6 witness run after one frame. -/
def c6evs : List VADData :=
  ((processList c6cfg initState [nf]).1.toOption).getD []

/-- Event of the window-filling second call of the C6 witness run. -/
def c6ev : VADData :=
  ((process c6cfg c6s pf).1.toOption).getD ⟨VADState.Started, []⟩

/-- State after the window-filling second call of the C6 witness run. -/
def c6s' : EngineState := (process c6cfg c6s pf).2

/-- Witness for C6: the second call fills the two-frame window, classifies
the concatenated bytes, and drains the buffer. -/
theorem C6_witness :
    initState.prev_vad_unit_result = false ∧
    c6s.vad_unit_frame_buffer.length < c6cfg.vad_unit_frame_ratio ∧
    (if (c6s.vad_unit_frame_buffer ++ [pf]).length = c6cfg.vad_unit_frame_ratio then
       c6s'.vad_unit_frame_buffer = [] ∧
       c6s'.prev_vad_unit_result
         = c6cfg.classify (c6s.vad_unit_frame_buffer ++ [pf]).flatten
     else
       c6s'.vad_unit_frame_buffer = c6s.vad_unit_frame_buffer ++ [pf] ∧
       c6s'.prev_vad_unit_result = c6s.prev_vad_unit_result) :=
  C6_classifier_window c6cfg [nf] pf c6evs c6s c6ev c6s'
    (by decide) (by decide) (by decide)

/-- Configuration refuting C9 as literally stated: rollback capacity 0 (and
start threshold 1 to reach `Continue` quickly). -/
def c9ccfg : Config :=
  { tc with start_frame_num_thresh := 1, start_frame_rollback := 0 }

/-- Reachable `Continue` state for the C9 counterexample. -/
def c9cs : EngineState := (process c9ccfg initState pf).2

/-- Counterexample to claim C9 as stated: with `start_rollback_frames = 0`
the frame just submitted is immediately evicted, so an event emitted in
resting state `Continue` carries an empty payload, not exactly the one
current frame. -/
theorem C9_counterexample :
    c9cs.vad_state = VADState.Continue ∧
    (process c9ccfg c9cs pf).1 = Except.ok ⟨VADState.Continue, []⟩ := by
  decide

/-- Claim C9 (amended: requires `start_rollback_frames ≥ 1`): every event
emitted from resting state `Continue` — tagged `Continue` or `Ended` —
carries exactly the one frame just submitted, because the output buffer is
cleared by every emission in `Continue` state including the `Started` that
entered it. -/
theorem C9_continue_payload (cfg : Config) (frames : List Frame) (f : Frame)
    (evs : List VADData) (s : EngineState) (ev : VADData) (s' : EngineState)
    (hroll : 1 ≤ cfg.start_frame_rollback)
    (h1 : processList cfg initState frames = (Except.ok evs, s))
    (hst : s.vad_state = VADState.Continue)
    (h2 : process cfg s f = (Except.ok ev, s')) :
    ev.data = [f] ∧
    (ev.state = VADState.Continue ∨ ev.state = VADState.Ended) := by
  obtain ⟨-, hbufnil⟩ := processList_continue_buffer cfg frames initState evs s
    (Or.inl rfl) (fun hh => by simp [initState] at hh) h1
  have hb : s.vad_result_buffer = [] := hbufnil hst
  obtain ⟨-, -, -, hdata, -, hbr⟩ := process_continue_cases cfg s f ev s' h2 hst
  have hdata1 : ev.data = [f] := by
    rw [hdata, hb, rollbackUpdate_nil _ _ hroll]
  refine ⟨hdata1, ?_⟩
  by_cases hc : s'.vad_unit_result_count ≥ cfg.end_frame_num_thresh
  · rw [if_pos hc] at hbr
    exact Or.inr hbr.1
  · rw [if_neg hc] at hbr
    exact Or.inl hbr.1

/-- Configuration for the C9 witness: start threshold 1 so one positive
frame reaches `Continue`; rollback capacity is the default 10. -/
def c9wcfg : Config := { tc with start_frame_num_thresh := 1 }

/-- Reachable `Continue` state for the C9 witness. -/
def c9ws : EngineState := (processList c9wcfg initState [pf]).2

/-- Events of the C9 witness run before the measured call. -/
def c9wevs : List VADData :=
  ((processList c9wcfg initState [pf]).1.toOption).getD []

/-- Event of the measured call of the C9 witness run. -/
def c9wev : VADData :=
  ((process c9wcfg c9ws nf).1.toOption).getD ⟨VADState.Started, []⟩

/-- State after the measured call of the C9 witness run. -/
def c9ws' : EngineState := (process c9wcfg c9ws nf).2

/-- Witness for the amended C9: in `Continue`, a further frame comes back as
the single-frame payload of a `Continue`/`Ended` event. -/
theorem C9_witness :
    c9wev.data = [nf] ∧
    (c9wev.state = VADState.Continue ∨ c9wev.state = VADState.Ended) :=
  C9_continue_payload c9wcfg [pf] nf c9wevs c9ws c9wev c9ws'
    (by decide) (by decide) (by decide) (by decide)

/-- Configuration refuting C10 as literally stated: start threshold 0 with
window ratio 2. -/
def c10ccfg : Config :=
  { tc with start_frame_num_thresh := 0, vad_unit_frame_ratio := 2 }

/-- Counterexample to claim C10 as stated: with `start_frame_threshold = 0`
the very first call — although it precedes the first classifier invocation
and uses the initial `false` classification — emits `Started`, not `Idle`,
because the count 0 already meets the threshold. -/
theorem C10_counterexample :
    1 + 1 ≤ c10ccfg.vad_unit_frame_ratio ∧
    (process c10ccfg initState nf).1 = Except.ok ⟨VADState.Started, [nf]⟩ := by
  decide

/-- Claim C10 (amended: requires `start_frame_threshold ≥ 1`): from a fresh
or freshly reset engine, each of the first `classifier_window_ratio − 1`
calls uses the carried-forward classification `false`, emits an `Idle`
event, and leaves the consecutive count at 0; the reset run agrees with the
fresh run. -/
theorem C10_warmup_idle (cfg : Config) (s0 : EngineState) (frames : List Frame)
    (hthresh : 1 ≤ cfg.start_frame_num_thresh)
    (hlen : frames.length + 1 ≤ cfg.vad_unit_frame_ratio)
    (hsz : ∀ f ∈ frames, f.length = cfg.sample_width * cfg.samples_per_frame) :
    (processList cfg initState frames).1.map
        (fun evs => evs.map (fun e => e.state))
      = Except.ok (List.replicate frames.length VADState.Idle) ∧
    (processList cfg initState frames).2.prev_vad_unit_result = false ∧
    (processList cfg initState frames).2.vad_unit_result_count = 0 ∧
    (processList cfg (reset s0) frames).1
      = (processList cfg initState frames).1 ∧
    erasePhantom (processList cfg (reset s0) frames).2
      = erasePhantom (processList cfg initState frames).2 := by
  obtain ⟨evs, s', hrun, hmap, hp2, hc2, -, -⟩ :=
    processList_prefix_idle cfg frames hthresh initState rfl rfl rfl
      (by simpa [initState] using hlen) hsz
  obtain ⟨ha1, ha2⟩ := processList_agree cfg frames (reset s0) initState rfl
  rw [hrun]
  exact ⟨by simp [Except.map, hmap], hp2, hc2, by rw [hrun] at ha1; exact ha1,
    by rw [hrun] at ha2; exact ha2⟩

/-- Configuration for the C10 witness: window ratio 2 with the default
threshold 5. -/
def c10wcfg : Config := { tc with vad_unit_frame_ratio := 2 }

/-- An arbitrary dirty state the C10 witness resets from. -/
def c10ws0 : EngineState :=
  ⟨[[7]], true, 3, VADState.Continue, [[9]], some 5⟩

/-- Witness for the amended C10: one frame (the single pre-classifier call
for ratio 2) yields an `Idle` event, classification `false`, count 0, both
from fresh and after reset. -/
theorem C10_witness :
    (processList c10wcfg initState [nf]).1.map
        (fun evs => evs.map (fun e => e.state))
      = Except.ok (List.replicate 1 VADState.Idle) ∧
    (processList c10wcfg initState [nf]).2.prev_vad_unit_result = false ∧
    (processList c10wcfg initState [nf]).2.vad_unit_result_count = 0 ∧
    (processList c10wcfg (reset c10ws0) [nf]).1
      = (processList c10wcfg initState [nf]).1 ∧
    erasePhantom (processList c10wcfg (reset c10ws0) [nf]).2
      = erasePhantom (processList c10wcfg initState [nf]).2 :=
  C10_warmup_idle c10wcfg c10ws0 [nf] (by decide) (by decide) (by decide)

end StreamingVad
